import Mathlib

/-!
Verification development for the Oblivilight repository.

The repository is a voice-driven "bedside diary" appliance.  The session
orchestration core described in the backend documents (`backend/README.md`,
the backend technical specification) is modelled here together with the
concrete source that ships in the repository: the Arduino wave-detection
firmware (`hardware/arduino/sketch_jul18a/sketch_jul18a.ino` and the earlier
variant) and the projector WebSocket hook
(`frontend/src/hooks/useProjectorSocket.js`).
-/

namespace Oblivilight

/-! ## Data model -/

/-- Utterance record: one transcribed, emotion-labelled unit of speech,
as described in the spec data model `{text, emotion_label, timestamp}`. -/
structure Utterance where
  text : String
  emotion_label : String
  timestamp : Nat
deriving Repr, DecidableEq

/-- Number of words of an utterance text (whitespace-separated tokens). -/
def countWords (s : String) : Nat :=
  ((s.splitOn " ").filter (fun w => w ≠ "")).length

/-- Total word count of a history. -/
def totalWords (h : List Utterance) : Nat :=
  (h.map (fun u => countWords u.text)).sum

/-! ## Forget workflow -/

/-- Modelled from the spec: the truncation loop of the Forget workflow
(`core/agent.py` is not in the repository snapshot; the backend technical
specification §5.2-2 describes it: walk the conversation history from the
most recent utterance backward, removing each visited utterance and
accumulating its word count, until the accumulated removed word count
reaches the threshold or the history is exhausted).  The first argument of
the loop is the still-unremoved part of the history in reverse
(most-recent-first) order; the second is the word count removed so far. -/
def forgetLoop (T : Nat) : List Utterance → Nat → List Utterance × Nat
  | [], acc => ([], acc)
  | u :: rest, acc =>
    if T ≤ acc then (u :: rest, acc)
    else forgetLoop T rest (acc + countWords u.text)

/-- Modelled from the spec: the Forget workflow truncation, acting on a
history stored in chronological order.  Returns the remaining history and
the total word count removed. -/
def runForget (T : Nat) (h : List Utterance) : List Utterance × Nat :=
  let r := forgetLoop T h.reverse 0
  (r.1.reverse, r.2)

lemma forgetLoop_fst_drop (T : Nat) :
    ∀ (rev : List Utterance) (acc : Nat), ∃ n, (forgetLoop T rev acc).1 = rev.drop n := by
  intro rev
  induction rev with
  | nil => intro acc; exact ⟨0, rfl⟩
  | cons u rest ih =>
    intro acc
    by_cases h : T ≤ acc
    · exact ⟨0, by simp [forgetLoop, h]⟩
    · obtain ⟨n, hn⟩ := ih (acc + countWords u.text)
      exact ⟨n + 1, by simpa [forgetLoop, h] using hn⟩

lemma forgetLoop_words (T : Nat) :
    ∀ (rev : List Utterance) (acc : Nat),
      totalWords (forgetLoop T rev acc).1 + (forgetLoop T rev acc).2
        = totalWords rev + acc := by
  intro rev
  induction rev with
  | nil => intro acc; simp [forgetLoop, totalWords]
  | cons u rest ih =>
    intro acc
    by_cases h : T ≤ acc
    · simp [forgetLoop, h]
    · have := ih (acc + countWords u.text)
      simp only [forgetLoop, h, if_false] at *
      simp [totalWords] at this ⊢
      omega

lemma forgetLoop_min (T : Nat) :
    ∀ (rev : List Utterance) (acc : Nat),
      min T (acc + totalWords rev) ≤ (forgetLoop T rev acc).2 := by
  intro rev
  induction rev with
  | nil =>
    intro acc
    simp [forgetLoop, totalWords]
  | cons u rest ih =>
    intro acc
    by_cases h : T ≤ acc
    · simp only [forgetLoop, h, if_true]
      exact le_trans (min_le_left _ _) h
    · have := ih (acc + countWords u.text)
      simp only [forgetLoop, h, if_false]
      have harr : acc + totalWords (u :: rest)
          = (acc + countWords u.text) + totalWords rest := by
        simp [totalWords]; omega
      omega

lemma forgetLoop_exhaust (T : Nat) :
    ∀ (rev : List Utterance) (acc : Nat),
      (forgetLoop T rev acc).2 < T → (forgetLoop T rev acc).1 = [] := by
  intro rev
  induction rev with
  | nil => intro acc _; rfl
  | cons u rest ih =>
    intro acc hlt
    by_cases h : T ≤ acc
    · simp only [forgetLoop, h, if_true] at hlt
      omega
    · simp only [forgetLoop, h, if_false] at hlt ⊢
      exact ih _ hlt

lemma totalWords_reverse (h : List Utterance) : totalWords h.reverse = totalWords h := by
  simp [totalWords, List.sum_reverse]

/-- Claim C1: for every threshold `T` and history, the Forget workflow removes
whole utterances from the most recent backward; the remaining history is a
prefix (in time) of the original; the removed word count accounts exactly for
the difference (whole units, never partial); the removed word count is at
least `min T W` where `W` is the total word count; and when the removal stops
short of the threshold the history has been exhausted (left empty), which is
not an error (the function is total). -/
theorem forget_workflow_spec (T : Nat) (h : List Utterance) :
    (∃ n, (runForget T h).1 = h.take n) ∧
    totalWords (runForget T h).1 + (runForget T h).2 = totalWords h ∧
    min T (totalWords h) ≤ (runForget T h).2 ∧
    ((runForget T h).2 < T → (runForget T h).1 = []) := by
  refine ⟨?_, ?_, ?_, ?_⟩
  · obtain ⟨n, hn⟩ := forgetLoop_fst_drop T h.reverse 0
    refine ⟨h.length - n, ?_⟩
    have : (runForget T h).1 = (h.reverse.drop n).reverse := by
      simp [runForget, hn]
    rw [this, ← List.rdrop_eq_reverse_drop_reverse, List.rdrop]
  · have := forgetLoop_words T h.reverse 0
    simpa [runForget, totalWords_reverse, totalWords, List.sum_reverse] using this
  · have := forgetLoop_min T h.reverse 0
    simpa [runForget, totalWords_reverse] using this
  · intro hlt
    have := forgetLoop_exhaust T h.reverse 0 (by simpa [runForget] using hlt)
    simp [runForget, this]

/-! ## Session state and orchestrator (spec-modelled) -/

/-- Orchestrator phases of the session state machine. -/
inductive Phase
  | IDLE
  | LISTENING
deriving Repr, DecidableEq

/-- Modelled from the spec: the `SystemState` singleton of `core/agent.py`
(not in the repository snapshot); fields follow the spec data model:
listening flag, processing flag, ordered utterance history, optional
injected context. -/
structure SystemState where
  is_listening : Bool
  is_processing : Bool
  history : List Utterance
  injected_context : Option String
deriving Repr, DecidableEq

/-- Derived state-machine phase: `LISTENING` while live analysis is active,
`IDLE` otherwise. -/
def SystemState.phase (s : SystemState) : Phase :=
  if s.is_listening then Phase.LISTENING else Phase.IDLE

/-- Initial session state. -/
def initState : SystemState := ⟨false, false, [], none⟩

/-- Persisted diary record, as produced by the Daily Summary workflow. -/
structure MemoryRecord where
  uuid : String
  date : String
  full_summary : String
  short_summary : String
  raw_conversation : List Utterance
deriving Repr, DecidableEq

/-- Failure of an external collaborator call (transcription, generation,
persistence, printing, speech). -/
inductive CollabError
  | timeout
  | failure (msg : String)
deriving Repr, DecidableEq

/-- Event pushed to the Light/Mode Signal Emitter (the `/ws/projector`
WebSocket fan-out). -/
inductive Event
  | setEmotion (emotion : String)
  | setMode (mode : String)
deriving Repr, DecidableEq

/-- Closed set of emotion labels (matches `emotionMap` in
`frontend/src/hooks/useProjectorSocket.js` and the backend README). -/
def emotionLabels : List String :=
  ["happy", "sad", "warm", "optimistic", "anxious", "peaceful",
   "depressed", "lonely", "angry", "neutral"]

/-- Mode names carried by `SET_MODE` events (backend README §6.1). -/
def modeNames : List String := ["IDLE", "SLEEP", "FORGET"]

/-- Well-formedness of an emitted event: one of the two documented shapes
with a constrained value. -/
def eventWellFormed : Event → Bool
  | .setEmotion e => decide (e ∈ emotionLabels)
  | .setMode m => decide (m ∈ modeNames)

/-- Modelled from the spec: the emotion classification step of
`core/chains.py` (not in the repository snapshot).  The collaborator model
produces a raw response for the utterance text; a response naming a label of
the closed set is used, anything unparseable or out of set falls back to
`"neutral"`. -/
def classify (model : String → String) (text : String) : String :=
  let response := model text
  if response ∈ emotionLabels then response else "neutral"

/-- External collaborators consumed by the orchestrator, as opaque
functions that may fail. -/
structure Env where
  emotionModel : String → String
  genFull : String → Except CollabError String
  genShort : String → Except CollabError String
  forgetConfirm : String → Except CollabError String
  speak : String → Except CollabError Unit
  persist : MemoryRecord → Except CollabError Unit
  printCard : MemoryRecord → Except CollabError Unit
  freshUuid : String
  today : String

/-- Separator used when prepending injected context to a generation
payload (shape of the `rag_conversation` prompt in `config/prompts.json`). -/
def contextSep : String := "\n---\n"

/-- Payload sent to a history-consulting generation collaborator: the
injected context, when set, is prepended verbatim as background. -/
def buildGenPayload (ctx : Option String) (base : String) : String :=
  match ctx with
  | some c => c ++ contextSep ++ base
  | none => base

/-- Modelled from the spec: `inject_context` of the RAG flow
(`POST /api/session/inject-context`): unconditionally overwrites
`injected_context`, independent of current state. -/
def injectContext (s : SystemState) (text : String) : SystemState :=
  { s with injected_context := some text }

/-- Concatenation of the history utterance texts into a single blob. -/
def concatTexts (h : List Utterance) : String :=
  String.intercalate "\n" (h.map (fun u => u.text))

/-- Trigger vocabulary accepted by the orchestrator entry point.  The spec
names the two forget tiers `FORGET_SHORT` / `FORGET_LONG`; the repository
documents name the corresponding wire strings `FORGET_8S` / `FORGET_30S`. -/
inductive Signal
  | WAKE_UP
  | SLEEP_TRIGGER
  | FORGET_SHORT
  | FORGET_LONG
deriving Repr, DecidableEq

/-- Parsing of the raw signal string delivered by the transport layer. -/
def parseSignal : String → Option Signal
  | "WAKE_UP" => some .WAKE_UP
  | "SLEEP_TRIGGER" => some .SLEEP_TRIGGER
  | "FORGET_SHORT" => some .FORGET_SHORT
  | "FORGET_LONG" => some .FORGET_LONG
  | _ => none

/-- Word-count threshold of the two forget tiers (25 / 90 words, backend
technical specification §5.2-2). -/
def forgetThreshold : Signal → Nat
  | .FORGET_SHORT => 25
  | .FORGET_LONG => 90
  | _ => 0

/-- Result of one workflow run: the updated session state, the events
emitted to the Light/Mode Signal Emitter, the payloads of the
history-consulting generation calls, and the record persisted (if any). -/
structure WorkOut where
  state : SystemState
  events : List Event
  genCalls : List String
  persisted : Option MemoryRecord
deriving Repr, DecidableEq

/-- Rejection reasons observable by the caller of the trigger entry point. -/
inductive TrigError
  | invalidSignal
  | busy
  | badState
  | collab (e : CollabError)
deriving Repr, DecidableEq

/-- Observable outcome of the trigger entry point. -/
structure TrigOut where
  state : SystemState
  events : List Event
  genCalls : List String
  result : Except TrigError (Option MemoryRecord)
deriving Repr

/-- Modelled from the spec: the Forget workflow body (backend technical
specification §5.2-2): truncate the history tail-to-head by word count,
generate a "here is what I still remember" confirmation from the remaining
history, optionally speak it. -/
def forgetWorkflow (env : Env) (T : Nat) (s : SystemState) : Except CollabError WorkOut := do
  let remaining := (runForget T s.history).1
  let payload := buildGenPayload s.injected_context (concatTexts remaining)
  let confirmation ← env.forgetConfirm payload
  let _ ← env.speak confirmation
  pure ⟨{ s with history := remaining }, [Event.setMode "FORGET"], [payload], none⟩

/-- Modelled from the spec: the Daily Summary workflow body (backend
technical specification §5.2-3): build the session blob from the remaining
history, generate the long and short summaries, persist the record, trigger
card printing, reset the session state and return to `IDLE`. -/
def sleepWorkflow (env : Env) (s : SystemState) : Except CollabError WorkOut := do
  let blob := concatTexts s.history
  let payload := buildGenPayload s.injected_context blob
  let full ← env.genFull payload
  let short ← env.genShort full
  let record : MemoryRecord := ⟨env.freshUuid, env.today, full, short, s.history⟩
  let _ ← env.persist record
  let _ ← env.printCard record
  pure ⟨{ s with history := [], injected_context := none, is_listening := false },
        [Event.setMode "SLEEP", Event.setMode "IDLE"], [payload], some record⟩

/-- Exclusive-workflow wrapper: sets `is_processing` on entry and releases
it on both the success and the failure path; a collaborator failure aborts
the workflow and is surfaced to the caller. -/
def runExclusive (body : SystemState → Except CollabError WorkOut)
    (s : SystemState) : TrigOut :=
  let locked := { s with is_processing := true }
  match body locked with
  | .ok out => ⟨{ out.state with is_processing := false }, out.events, out.genCalls,
      .ok out.persisted⟩
  | .error e => ⟨{ locked with is_processing := false }, [], [], .error (.collab e)⟩

/-- Rejected trigger: no workflow started, no state mutated, an error
surfaced to the caller. -/
def rejected (s : SystemState) (e : TrigError) : TrigOut := ⟨s, [], [], .error e⟩

/-- Modelled from the spec: the orchestrator trigger entry point
(`POST /api/device/signal` handling in `main.py`, not in the repository
snapshot): parse the signal, reject unknown signals and triggers arriving
while an exclusive workflow is running, dispatch state transitions. -/
def handleTrigger (env : Env) (raw : String) (s : SystemState) : TrigOut :=
  match parseSignal raw with
  | none => rejected s .invalidSignal
  | some sig =>
    if s.is_processing then rejected s .busy
    else
      match sig with
      | .WAKE_UP =>
        if s.is_listening then rejected s .badState
        else ⟨{ s with history := [], is_listening := true }, [], [], .ok none⟩
      | .FORGET_SHORT =>
        if s.is_listening then runExclusive (forgetWorkflow env 25) s
        else rejected s .badState
      | .FORGET_LONG =>
        if s.is_listening then runExclusive (forgetWorkflow env 90) s
        else rejected s .badState
      | .SLEEP_TRIGGER =>
        if s.is_listening then runExclusive (sleepWorkflow env) { s with is_listening := false }
        else rejected s .badState

/-- Modelled from the spec: one tick of the live analysis loop with the
transcription result of the drained chunk.  Empty transcriptions (silence)
are discarded; otherwise the utterance is classified, appended to the
history, and an emotion event is emitted. -/
def liveStep (env : Env) (s : SystemState) (chunk : String) (t : Nat) :
    SystemState × List Event :=
  if s.is_listening = false ∨ s.is_processing = true then (s, [])
  else if chunk = "" then (s, [])
  else
    let label := classify env.emotionModel chunk
    ({ s with history := s.history ++ [⟨chunk, label, t⟩] }, [Event.setEmotion label])

/-- Folding the live loop over a sequence of transcribed chunks with their
capture timestamps. -/
def foldLive (env : Env) (s : SystemState) (chunks : List (String × Nat)) : SystemState :=
  chunks.foldl (fun st p => (liveStep env st p.1 p.2).1) s

/-! ## Helper lemmas about the orchestrator model -/

lemma classify_mem (model : String → String) (text : String) :
    classify model text ∈ emotionLabels := by
  show (if model text ∈ emotionLabels then model text else "neutral") ∈ emotionLabels
  split
  · assumption
  · simp [emotionLabels]

lemma forgetWorkflow_ok (env : Env) (T : Nat) (s : SystemState) (out : WorkOut)
    (h : forgetWorkflow env T s = .ok out) :
    out.state = { s with history := (runForget T s.history).1 } ∧
    out.events = [Event.setMode "FORGET"] ∧
    out.genCalls =
      [buildGenPayload s.injected_context (concatTexts (runForget T s.history).1)] ∧
    out.persisted = none := by
  unfold forgetWorkflow at h
  cases h1 : env.forgetConfirm
      (buildGenPayload s.injected_context (concatTexts (runForget T s.history).1)) with
  | error e => simp [h1, Bind.bind, Except.bind] at h
  | ok conf =>
    cases h2 : env.speak conf with
    | error e => simp [h1, h2, Bind.bind, Except.bind] at h
    | ok u =>
      simp [h1, h2, Bind.bind, Except.bind, pure, Except.pure] at h
      simp [← h]

lemma sleepWorkflow_ok (env : Env) (s : SystemState) (out : WorkOut)
    (h : sleepWorkflow env s = .ok out) :
    out.state = { s with history := [], injected_context := none, is_listening := false } ∧
    out.events = [Event.setMode "SLEEP", Event.setMode "IDLE"] ∧
    out.genCalls = [buildGenPayload s.injected_context (concatTexts s.history)] ∧
    ∃ full short,
      out.persisted = some ⟨env.freshUuid, env.today, full, short, s.history⟩ := by
  unfold sleepWorkflow at h
  cases h1 : env.genFull (buildGenPayload s.injected_context (concatTexts s.history)) with
  | error e => simp [h1, Bind.bind, Except.bind] at h
  | ok full =>
    cases h2 : env.genShort full with
    | error e => simp [h1, h2, Bind.bind, Except.bind] at h
    | ok short =>
      cases h3 : env.persist ⟨env.freshUuid, env.today, full, short, s.history⟩ with
      | error e => simp [h1, h2, h3, Bind.bind, Except.bind] at h
      | ok u =>
        cases h4 : env.printCard ⟨env.freshUuid, env.today, full, short, s.history⟩ with
        | error e => simp [h1, h2, h3, h4, Bind.bind, Except.bind] at h
        | ok u' =>
          simp [h1, h2, h3, h4, Bind.bind, Except.bind, pure, Except.pure] at h
          refine ⟨by simp [← h], by simp [← h], by simp [← h], full, short, by simp [← h]⟩

lemma runExclusive_processing (body : SystemState → Except CollabError WorkOut)
    (s : SystemState) : (runExclusive body s).state.is_processing = false := by
  unfold runExclusive
  cases hb : body { s with is_processing := true } <;> simp [hb]

lemma runExclusive_ok (body : SystemState → Except CollabError WorkOut)
    (s : SystemState) (p : Option MemoryRecord)
    (h : (runExclusive body s).result = Except.ok p) :
    ∃ out, body { s with is_processing := true } = Except.ok out ∧ p = out.persisted ∧
      runExclusive body s
        = ⟨{ out.state with is_processing := false }, out.events, out.genCalls,
            Except.ok out.persisted⟩ := by
  cases hb : body { s with is_processing := true } with
  | error e => simp [runExclusive, hb] at h
  | ok out =>
    have hperiod : p = out.persisted := by
      have := h
      simp [runExclusive, hb] at this
      exact this.symm
    exact ⟨out, rfl, hperiod, by simp [runExclusive, hb]⟩

lemma runExclusive_genCalls (body : SystemState → Except CollabError WorkOut)
    (s : SystemState) :
    (runExclusive body s).genCalls = [] ∨
    ∃ out, body { s with is_processing := true } = Except.ok out ∧
      (runExclusive body s).genCalls = out.genCalls := by
  cases hb : body { s with is_processing := true } with
  | error e => left; simp [runExclusive, hb]
  | ok out => right; exact ⟨out, rfl, by simp [runExclusive, hb]⟩

lemma runExclusive_events (body : SystemState → Except CollabError WorkOut)
    (s : SystemState) :
    (runExclusive body s).events = [] ∨
    ∃ out, body { s with is_processing := true } = Except.ok out ∧
      (runExclusive body s).events = out.events := by
  cases hb : body { s with is_processing := true } with
  | error e => left; simp [runExclusive, hb]
  | ok out => right; exact ⟨out, rfl, by simp [runExclusive, hb]⟩

lemma handleTrigger_sleep_reduce (env : Env) (s : SystemState)
    (hb : s.is_processing = false) (hl : s.is_listening = true) :
    handleTrigger env "SLEEP_TRIGGER" s
      = runExclusive (sleepWorkflow env) { s with is_listening := false } := by
  have hp : parseSignal "SLEEP_TRIGGER" = some Signal.SLEEP_TRIGGER := rfl
  simp [handleTrigger, hp, hb, hl]

lemma handleTrigger_forget_reduce (env : Env) (s : SystemState)
    (hb : s.is_processing = false) (hl : s.is_listening = true) :
    handleTrigger env "FORGET_SHORT" s = runExclusive (forgetWorkflow env 25) s ∧
    handleTrigger env "FORGET_LONG" s = runExclusive (forgetWorkflow env 90) s := by
  have hp1 : parseSignal "FORGET_SHORT" = some Signal.FORGET_SHORT := rfl
  have hp2 : parseSignal "FORGET_LONG" = some Signal.FORGET_LONG := rfl
  constructor <;> simp [handleTrigger, hp1, hp2, hb, hl]

lemma handleTrigger_sleep_ok (env : Env) (s : SystemState) (rec : MemoryRecord)
    (h : (handleTrigger env "SLEEP_TRIGGER" s).result = Except.ok (some rec)) :
    rec.raw_conversation = s.history ∧
    (handleTrigger env "SLEEP_TRIGGER" s).state = ⟨false, false, [], none⟩ := by
  have hp : parseSignal "SLEEP_TRIGGER" = some Signal.SLEEP_TRIGGER := rfl
  by_cases hb : s.is_processing
  · simp [handleTrigger, hp, hb, rejected] at h
  · by_cases hl : s.is_listening
    · have hred := handleTrigger_sleep_reduce env s (by simpa using hb) hl
      rw [hred] at h ⊢
      obtain ⟨out, hbody, hpers, heq⟩ := runExclusive_ok _ _ _ h
      obtain ⟨hstate, -, -, full, short, hrec⟩ := sleepWorkflow_ok _ _ _ hbody
      rw [hrec] at hpers
      constructor
      · cases hpers
        rfl
      · rw [heq, hstate]
    · simp [handleTrigger, hp, hb, hl, rejected] at h

lemma foldLive_spec (env : Env) :
    ∀ (chunks : List (String × Nat)) (s : SystemState),
      s.is_listening = true → s.is_processing = false →
      (∀ p ∈ chunks, p.1 ≠ "") →
      (foldLive env s chunks).history
        = s.history ++ chunks.map (fun p => ⟨p.1, classify env.emotionModel p.1, p.2⟩) := by
  intro chunks
  induction chunks with
  | nil => intro s _ _ _; simp [foldLive]
  | cons c rest ih =>
    intro s hl hp hne
    have hc : c.1 ≠ "" := hne c (by simp)
    have hstep : (liveStep env s c.1 c.2).1
        = { s with history := s.history ++ [⟨c.1, classify env.emotionModel c.1, c.2⟩] } := by
      simp [liveStep, hl, hp, hc]
    have hfold : foldLive env s (c :: rest) = foldLive env (liveStep env s c.1 c.2).1 rest := rfl
    rw [hfold, hstep,
      ih _ (by simpa using hl) (by simpa using hp) (fun p hp' => hne p (by simp [hp']))]
    simp

/-! ## Claim theorems about the orchestrator -/

/-- Claim C2: when the Daily Summary workflow triggered by `SLEEP_TRIGGER`
completes successfully, the persisted record's `raw_conversation` equals the
history exactly as it was when `SLEEP_TRIGGER` was received, and afterwards
the history is empty, `is_listening` is false, `injected_context` is cleared,
and the state machine is back in `IDLE`. -/
theorem sleep_summary_postconditions (env : Env) (s : SystemState) (rec : MemoryRecord)
    (h : (handleTrigger env "SLEEP_TRIGGER" s).result = Except.ok (some rec)) :
    rec.raw_conversation = s.history ∧
    (handleTrigger env "SLEEP_TRIGGER" s).state.history = [] ∧
    (handleTrigger env "SLEEP_TRIGGER" s).state.is_listening = false ∧
    (handleTrigger env "SLEEP_TRIGGER" s).state.injected_context = none ∧
    (handleTrigger env "SLEEP_TRIGGER" s).state.phase = Phase.IDLE := by
  obtain ⟨hraw, hstate⟩ := handleTrigger_sleep_ok env s rec h
  rw [hstate]
  exact ⟨hraw, rfl, rfl, rfl, rfl⟩

/-- Claim C3: a `WAKE_UP` trigger received in `IDLE` resets the history to
empty and sets `is_listening`; after `N` utterance appends from the live
analysis loop the history has length exactly `N`, with the utterances in
capture order. -/
theorem wake_then_live_appends (env : Env) (s : SystemState) (chunks : List (String × Nat))
    (hIdle : s.is_listening = false) (hP : s.is_processing = false)
    (hne : ∀ p ∈ chunks, p.1 ≠ "") :
    (handleTrigger env "WAKE_UP" s).state.history = [] ∧
    (handleTrigger env "WAKE_UP" s).state.is_listening = true ∧
    (foldLive env (handleTrigger env "WAKE_UP" s).state chunks).history
      = chunks.map (fun p => ⟨p.1, classify env.emotionModel p.1, p.2⟩) ∧
    (foldLive env (handleTrigger env "WAKE_UP" s).state chunks).history.length
      = chunks.length := by
  have hp : parseSignal "WAKE_UP" = some Signal.WAKE_UP := rfl
  have hred : handleTrigger env "WAKE_UP" s
      = ⟨{ s with history := [], is_listening := true }, [], [], Except.ok none⟩ := by
    simp [handleTrigger, hp, hP, hIdle]
  rw [hred]
  refine ⟨rfl, rfl, ?_, ?_⟩
  · rw [foldLive_spec env chunks _ (by simp) (by simpa using hP) hne]
    simp
  · rw [foldLive_spec env chunks _ (by simp) (by simpa using hP) hne]
    simp

/-- Claim C4: the trigger entry point accepts exactly the four signals of
the vocabulary; any other signal value is rejected with an explicit
invalid-signal error and mutates nothing; any trigger received while
`is_processing` is true is rejected with an observable error, starts no
workflow and mutates no state. -/
theorem trigger_vocabulary_and_rejection (env : Env) (raw : String) (s : SystemState) :
    ((parseSignal raw).isSome = true ↔
      raw = "WAKE_UP" ∨ raw = "SLEEP_TRIGGER" ∨ raw = "FORGET_SHORT" ∨ raw = "FORGET_LONG") ∧
    (parseSignal raw = none → handleTrigger env raw s = rejected s TrigError.invalidSignal) ∧
    (s.is_processing = true →
      (handleTrigger env raw s).state = s ∧ (handleTrigger env raw s).events = [] ∧
      (handleTrigger env raw s).genCalls = [] ∧
      ∃ e, (handleTrigger env raw s).result = Except.error e) := by
  refine ⟨⟨?_, ?_⟩, ?_, ?_⟩
  · intro h
    unfold parseSignal at h
    split at h
    · exact Or.inl rfl
    · exact Or.inr (Or.inl rfl)
    · exact Or.inr (Or.inr (Or.inl rfl))
    · exact Or.inr (Or.inr (Or.inr rfl))
    · simp at h
  · intro h
    rcases h with h | h | h | h <;> subst h <;> rfl
  · intro h
    simp [handleTrigger, h, rejected]
  · intro h
    cases hp : parseSignal raw with
    | none =>
      refine ⟨?_, ?_, ?_, TrigError.invalidSignal, ?_⟩ <;> simp [handleTrigger, hp, rejected]
    | some sig =>
      refine ⟨?_, ?_, ?_, TrigError.busy, ?_⟩ <;> simp [handleTrigger, hp, h, rejected]

/-- Claim C5: on every execution path of the Forget and Daily Summary
workflows — including a collaborator failure in any step — the
`is_processing` flag set at workflow entry is released at exit; a failing
step aborts the remaining steps and surfaces an error to the caller. -/
theorem processing_always_released :
    (∀ (env : Env) (raw : String) (s : SystemState), s.is_processing = false →
        (handleTrigger env raw s).state.is_processing = false) ∧
    (∀ (body : SystemState → Except CollabError WorkOut) (s : SystemState) (e : CollabError),
        body { s with is_processing := true } = Except.error e →
        runExclusive body s
          = ⟨{ s with is_processing := false }, [], [],
              Except.error (TrigError.collab e)⟩) := by
  constructor
  · intro env raw s h
    cases hp : parseSignal raw with
    | none => simp [handleTrigger, hp, rejected, h]
    | some sig =>
      cases sig with
      | WAKE_UP =>
        by_cases hl : s.is_listening <;> simp [handleTrigger, hp, h, hl, rejected]
      | SLEEP_TRIGGER =>
        by_cases hl : s.is_listening <;>
          simp [handleTrigger, hp, h, hl, rejected, runExclusive_processing]
      | FORGET_SHORT =>
        by_cases hl : s.is_listening <;>
          simp [handleTrigger, hp, h, hl, rejected, runExclusive_processing]
      | FORGET_LONG =>
        by_cases hl : s.is_listening <;>
          simp [handleTrigger, hp, h, hl, rejected, runExclusive_processing]
  · intro body s e hbody
    simp [runExclusive, hbody]

/-- Claim C6: for every input text the classifier returns a label from the
closed ten-element emotion set, and on an out-of-set or unparseable
classifier response it falls back to `neutral`. -/
theorem classify_closed_and_fallback (model : String → String) (text : String) :
    classify model text ∈ emotionLabels ∧
    (model text ∉ emotionLabels → classify model text = "neutral") := by
  refine ⟨classify_mem model text, fun h => ?_⟩
  show (if model text ∈ emotionLabels then model text else "neutral") = "neutral"
  rw [if_neg h]

/-- Claim C7: `inject_context` unconditionally overwrites
`injected_context` in any state; while it is set, every history-consulting
generation call of the workflows carries that text verbatim (as a prefix of
the payload, before the separator); a successful Daily Summary reset clears
it. -/
theorem inject_context_flow :
    (∀ (s : SystemState) (text : String),
        (injectContext s text).injected_context = some text) ∧
    (∀ (env : Env) (raw : String) (s : SystemState) (ctx : String),
        s.injected_context = some ctx →
        ∀ p ∈ (handleTrigger env raw s).genCalls, ∃ rest, p = ctx ++ contextSep ++ rest) ∧
    (∀ (env : Env) (s : SystemState) (rec : MemoryRecord),
        (handleTrigger env "SLEEP_TRIGGER" s).result = Except.ok (some rec) →
        (handleTrigger env "SLEEP_TRIGGER" s).state.injected_context = none) := by
  refine ⟨fun s text => rfl, ?_, ?_⟩
  · intro env raw s ctx hctx p hp
    cases hparse : parseSignal raw with
    | none => simp [handleTrigger, hparse, rejected] at hp
    | some sig =>
      by_cases hb : s.is_processing
      · simp [handleTrigger, hparse, hb, rejected] at hp
      · cases sig with
        | WAKE_UP =>
          by_cases hl : s.is_listening <;>
            simp [handleTrigger, hparse, hb, hl, rejected] at hp
        | FORGET_SHORT =>
          by_cases hl : s.is_listening
          · have hred : handleTrigger env raw s = runExclusive (forgetWorkflow env 25) s := by
              simp [handleTrigger, hparse, hb, hl]
            rw [hred] at hp
            rcases runExclusive_genCalls (forgetWorkflow env 25) s with hg | ⟨out, hbody, hg⟩
            · rw [hg] at hp; simp at hp
            · rw [hg] at hp
              obtain ⟨-, -, hcalls, -⟩ := forgetWorkflow_ok _ _ _ _ hbody
              rw [hcalls] at hp
              simp at hp
              exact ⟨concatTexts (runForget 25 s.history).1,
                by rw [hp]; simp [buildGenPayload, hctx]⟩
          · simp [handleTrigger, hparse, hb, hl, rejected] at hp
        | FORGET_LONG =>
          by_cases hl : s.is_listening
          · have hred : handleTrigger env raw s = runExclusive (forgetWorkflow env 90) s := by
              simp [handleTrigger, hparse, hb, hl]
            rw [hred] at hp
            rcases runExclusive_genCalls (forgetWorkflow env 90) s with hg | ⟨out, hbody, hg⟩
            · rw [hg] at hp; simp at hp
            · rw [hg] at hp
              obtain ⟨-, -, hcalls, -⟩ := forgetWorkflow_ok _ _ _ _ hbody
              rw [hcalls] at hp
              simp at hp
              exact ⟨concatTexts (runForget 90 s.history).1,
                by rw [hp]; simp [buildGenPayload, hctx]⟩
          · simp [handleTrigger, hparse, hb, hl, rejected] at hp
        | SLEEP_TRIGGER =>
          by_cases hl : s.is_listening
          · have hred : handleTrigger env raw s
                = runExclusive (sleepWorkflow env) { s with is_listening := false } := by
              simp [handleTrigger, hparse, hb, hl]
            rw [hred] at hp
            rcases runExclusive_genCalls (sleepWorkflow env)
                { s with is_listening := false } with hg | ⟨out, hbody, hg⟩
            · rw [hg] at hp; simp at hp
            · rw [hg] at hp
              obtain ⟨-, -, hcalls, -⟩ := sleepWorkflow_ok _ _ _ hbody
              rw [hcalls] at hp
              simp at hp
              exact ⟨concatTexts s.history,
                by rw [hp]; simp [buildGenPayload, hctx]⟩
          · simp [handleTrigger, hparse, hb, hl, rejected] at hp
  · intro env s rec h
    obtain ⟨-, hstate⟩ := handleTrigger_sleep_ok env s rec h
    rw [hstate]

/-- Claim C8: every event the orchestrator emits to the Light/Mode Signal
Emitter has one of exactly two shapes: `SET_EMOTION` with a label of the
emotion set, or `SET_MODE` with a mode in `{IDLE, SLEEP, FORGET}`. -/
theorem emitted_event_shapes (env : Env) (raw : String) (s : SystemState)
    (chunk : String) (t : Nat) :
    (handleTrigger env raw s).events.all eventWellFormed = true ∧
    (liveStep env s chunk t).2.all eventWellFormed = true := by
  constructor
  · cases hparse : parseSignal raw with
    | none => simp [handleTrigger, hparse, rejected]
    | some sig =>
      by_cases hb : s.is_processing
      · simp [handleTrigger, hparse, hb, rejected]
      · cases sig with
        | WAKE_UP =>
          by_cases hl : s.is_listening <;>
            simp [handleTrigger, hparse, hb, hl, rejected]
        | FORGET_SHORT =>
          by_cases hl : s.is_listening
          · have hred : handleTrigger env raw s = runExclusive (forgetWorkflow env 25) s := by
              simp [handleTrigger, hparse, hb, hl]
            rw [hred]
            rcases runExclusive_events (forgetWorkflow env 25) s with hg | ⟨out, hbody, hg⟩
            · simp [hg]
            · obtain ⟨-, hevents, -, -⟩ := forgetWorkflow_ok _ _ _ _ hbody
              rw [hg, hevents]
              decide
          · simp [handleTrigger, hparse, hb, hl, rejected]
        | FORGET_LONG =>
          by_cases hl : s.is_listening
          · have hred : handleTrigger env raw s = runExclusive (forgetWorkflow env 90) s := by
              simp [handleTrigger, hparse, hb, hl]
            rw [hred]
            rcases runExclusive_events (forgetWorkflow env 90) s with hg | ⟨out, hbody, hg⟩
            · simp [hg]
            · obtain ⟨-, hevents, -, -⟩ := forgetWorkflow_ok _ _ _ _ hbody
              rw [hg, hevents]
              decide
          · simp [handleTrigger, hparse, hb, hl, rejected]
        | SLEEP_TRIGGER =>
          by_cases hl : s.is_listening
          · have hred : handleTrigger env raw s
                = runExclusive (sleepWorkflow env) { s with is_listening := false } := by
              simp [handleTrigger, hparse, hb, hl]
            rw [hred]
            rcases runExclusive_events (sleepWorkflow env)
                { s with is_listening := false } with hg | ⟨out, hbody, hg⟩
            · simp [hg]
            · obtain ⟨-, hevents, -, -⟩ := sleepWorkflow_ok _ _ _ hbody
              rw [hg, hevents]
              decide
          · simp [handleTrigger, hparse, hb, hl, rejected]
  · unfold liveStep
    split
    · rfl
    · split
      · rfl
      · simp only [List.all_cons, List.all_nil, Bool.and_true, eventWellFormed]
        exact decide_eq_true (classify_mem env.emotionModel chunk)

/-! ## Concrete instances used by the witnesses -/

/-- Collaborator environment whose calls all succeed. -/
def envOk : Env where
  emotionModel := fun _ => "happy"
  genFull := fun _ => Except.ok "full summary"
  genShort := fun _ => Except.ok "short line"
  forgetConfirm := fun _ => Except.ok "I still remember"
  speak := fun _ => Except.ok ()
  persist := fun _ => Except.ok ()
  printCard := fun _ => Except.ok ()
  freshUuid := "uuid-1"
  today := "2025-06-01"

/-- Environment whose full-summary generation step fails. -/
def envFailGen : Env :=
  { envOk with genFull := fun _ => Except.error CollabError.timeout }

/-- Session state in the middle of a listening session. -/
def listeningState : SystemState :=
  ⟨true, false, [⟨"I feel tired", "neutral", 1⟩], none⟩

/-- Session state while an exclusive workflow is running. -/
def busyState : SystemState := ⟨true, true, [], none⟩

/-- Listening state carrying an injected context. -/
def injectedState : SystemState :=
  ⟨true, false, [⟨"hi", "neutral", 1⟩], some "user felt lonely last week"⟩

/-- Record persisted for the sleep witness scenario. -/
def sleepRecordW : MemoryRecord :=
  ⟨"uuid-1", "2025-06-01", "full summary", "short line", listeningState.history⟩

/-- Chunk sequence appended in the live-loop witness scenario. -/
def chunksW : List (String × Nat) :=
  [("I feel tired", 1), ("work was hard", 2), ("but dinner was nice", 3)]

/-! ## Witnesses -/

/-- Witness for claim C2 at a concrete environment and state. -/
theorem sleep_summary_postconditions_witness :
    (handleTrigger envOk "SLEEP_TRIGGER" listeningState).result
        = Except.ok (some sleepRecordW) ∧
    sleepRecordW.raw_conversation = listeningState.history ∧
    (handleTrigger envOk "SLEEP_TRIGGER" listeningState).state.history = [] ∧
    (handleTrigger envOk "SLEEP_TRIGGER" listeningState).state.phase = Phase.IDLE := by
  refine ⟨rfl, ?_, ?_, ?_⟩
  · exact (sleep_summary_postconditions envOk listeningState sleepRecordW rfl).1
  · exact (sleep_summary_postconditions envOk listeningState sleepRecordW rfl).2.1
  · exact (sleep_summary_postconditions envOk listeningState sleepRecordW rfl).2.2.2.2

/-- Witness for claim C3 at a concrete environment, state and chunk list. -/
theorem wake_then_live_appends_witness :
    (foldLive envOk (handleTrigger envOk "WAKE_UP" initState).state chunksW).history
        = chunksW.map (fun p => ⟨p.1, classify envOk.emotionModel p.1, p.2⟩) ∧
    (foldLive envOk (handleTrigger envOk "WAKE_UP" initState).state chunksW).history.length
        = 3 := by
  have := wake_then_live_appends envOk initState chunksW rfl rfl (by decide)
  exact ⟨this.2.2.1, this.2.2.2⟩

/-- Witness for claim C4 at a concrete bogus signal and a busy state. -/
theorem trigger_vocabulary_and_rejection_witness :
    handleTrigger envOk "BOGUS" initState = rejected initState TrigError.invalidSignal ∧
    (handleTrigger envOk "SLEEP_TRIGGER" busyState).state = busyState := by
  refine ⟨?_, ?_⟩
  · exact (trigger_vocabulary_and_rejection envOk "BOGUS" initState).2.1 rfl
  · exact ((trigger_vocabulary_and_rejection envOk "SLEEP_TRIGGER" busyState).2.2 rfl).1

/-- Witness for claim C5: a failed generation step still releases the
processing flag and surfaces the error. -/
theorem processing_always_released_witness :
    (handleTrigger envFailGen "SLEEP_TRIGGER" listeningState).state.is_processing = false ∧
    runExclusive (fun _ => Except.error CollabError.timeout) initState
      = ⟨{ initState with is_processing := false }, [], [],
          Except.error (TrigError.collab CollabError.timeout)⟩ := by
  refine ⟨?_, ?_⟩
  · exact processing_always_released.1 envFailGen "SLEEP_TRIGGER" listeningState rfl
  · exact processing_always_released.2
      (fun _ => Except.error CollabError.timeout) initState CollabError.timeout rfl

/-- Witness for claim C6 at a concrete out-of-set classifier response. -/
theorem classify_closed_and_fallback_witness :
    classify (fun _ => "garbage") "hello" ∈ emotionLabels ∧
    classify (fun _ => "garbage") "hello" = "neutral" := by
  refine ⟨?_, ?_⟩
  · exact (classify_closed_and_fallback (fun _ => "garbage") "hello").1
  · exact (classify_closed_and_fallback (fun _ => "garbage") "hello").2 (by decide)

/-- Witness for claim C7 at a concrete injected context and forget
trigger. -/
theorem inject_context_flow_witness :
    (injectContext initState "user felt lonely last week").injected_context
        = some "user felt lonely last week" ∧
    (∀ p ∈ (handleTrigger envOk "FORGET_SHORT" injectedState).genCalls,
        ∃ rest, p = "user felt lonely last week" ++ contextSep ++ rest) := by
  refine ⟨?_, ?_⟩
  · exact inject_context_flow.1 initState "user felt lonely last week"
  · exact inject_context_flow.2.1 envOk "FORGET_SHORT" injectedState
      "user felt lonely last week" rfl

/-! ## Projector WebSocket hook (`frontend/src/hooks/useProjectorSocket.js`) -/

/-- Parsed WebSocket message as seen by the hook's `onmessage` handler:
the message `type` and the optional `payload.emotion` / `payload.mode`
fields. -/
structure ProjMsg where
  ty : String
  emotion : Option String
  mode : Option String
deriving Repr, DecidableEq

/-- Truthiness of an optional string field (in the JavaScript guard
`data.payload?.emotion`, an absent field and the empty string are falsy). -/
def truthy : Option String → Bool
  | none => false
  | some s => s ≠ ""

/-- Own properties of the `emotionMap` object literal of
`useProjectorSocket.js`: label → index. -/
def emotionMapOwn : String → Option Nat
  | "happy" => some 1
  | "sad" => some 2
  | "warm" => some 3
  | "optimistic" => some 4
  | "anxious" => some 5
  | "peaceful" => some 6
  | "depressed" => some 7
  | "lonely" => some 8
  | "angry" => some 9
  | "neutral" => some 0
  | _ => none

/-- ASCII lowering, modelling `toLowerCase()` over the ASCII keys of
`emotionMap`: every character is lowered individually. -/
def lowerAscii (s : String) : String := ⟨s.data.map Char.toLower⟩

/-- Property names every plain object literal inherits from
`Object.prototype`; the JavaScript `in` operator used by the handler's
guard `emotionKey in emotionMap` also accepts these. -/
def protoKeys : List String :=
  ["constructor", "hasOwnProperty", "isPrototypeOf", "propertyIsEnumerable",
   "toLocaleString", "toString", "valueOf", "__defineGetter__",
   "__defineSetter__", "__lookupGetter__", "__lookupSetter__", "__proto__"]

/-- Value stored in `latestEmotionRef` (and hence later published as
`emotionIndex`): the numeric index when the key is an own property of
`emotionMap`, or the member inherited from `Object.prototype` (a function
or object, in particular never null) when the key passes the `in` test
only through the prototype chain. -/
inductive RefVal
  | idx (i : Nat)
  | inherited (key : String)
deriving Repr, DecidableEq

/-- The JavaScript lookup `emotionMap[key]` on the keys accepted by
`key in emotionMap`: `none` exactly when the `in` test fails. -/
def emotionMapGet (key : String) : Option RefVal :=
  match emotionMapOwn key with
  | some i => some (RefVal.idx i)
  | none => if protoKeys.contains key then some (RefVal.inherited key) else none

/-- Hook state: the `latestEmotionRef` ref, the exposed `emotionIndex`
React state, and the exposed `mode` React state. -/
structure SocketState where
  latestEmotion : Option RefVal
  emotionIndex : Option RefVal
  mode : String
deriving Repr, DecidableEq

/-- Initial hook state (`useState(null)`, `useState("IDLE")`). -/
def initSocket : SocketState := ⟨none, none, "IDLE"⟩

/-- The `onmessage` handler: a `SET_EMOTION` message with a truthy emotion
whose lower-cased key passes `emotionKey in emotionMap` stores
`emotionMap[emotionKey]` in `latestEmotionRef` — the numeric index for one
of the ten labels, the member inherited from `Object.prototype` otherwise
(a key failing the `in` test only logs a warning); a `SET_MODE` message
with a truthy mode sets the exposed mode; nothing else changes. -/
def onMessage (st : SocketState) (m : ProjMsg) : SocketState :=
  if m.ty = "SET_EMOTION" ∧ truthy m.emotion = true then
    match m.emotion with
    | some e =>
      match emotionMapGet (lowerAscii e) with
      | some v => { st with latestEmotion := some v }
      | none => st
    | none => st
  else if m.ty = "SET_MODE" ∧ truthy m.mode = true then
    match m.mode with
    | some md => { st with mode := md }
    | none => st
  else st

/-- The 10-second `emotionInterval` timer tick: when `latestEmotionRef`
holds a value (the check is only `!== null`), publish it as `emotionIndex`
and clear the ref. -/
def tick (st : SocketState) : SocketState :=
  match st.latestEmotion with
  | some v => { st with emotionIndex := some v, latestEmotion := none }
  | none => st

/-- Value a message writes to `latestEmotionRef`, if any. -/
def msgEmotion (m : ProjMsg) : Option RefVal :=
  if m.ty = "SET_EMOTION" ∧ truthy m.emotion = true then
    match m.emotion with
    | some e => emotionMapGet (lowerAscii e)
    | none => none
  else none

/-- Most recently stored `latestEmotionRef` value of a message segment. -/
def lastValid (ms : List ProjMsg) : Option RefVal :=
  ms.foldl (fun acc m => match msgEmotion m with | some v => some v | none => acc) none

lemma onMessage_emotionIndex (st : SocketState) (m : ProjMsg) :
    (onMessage st m).emotionIndex = st.emotionIndex := by
  unfold onMessage
  split
  · split
    · split <;> rfl
    · rfl
  · split
    · split <;> rfl
    · rfl

lemma onMessage_latest (st : SocketState) (m : ProjMsg) :
    (onMessage st m).latestEmotion
      = match msgEmotion m with
        | some v => some v
        | none => st.latestEmotion := by
  unfold onMessage msgEmotion
  split
  · split
    · split <;> simp_all
    · simp_all
  · split
    · split <;> rfl
    · rfl

lemma foldl_onMessage_emotionIndex :
    ∀ (ms : List ProjMsg) (st : SocketState),
      (ms.foldl onMessage st).emotionIndex = st.emotionIndex := by
  intro ms
  induction ms with
  | nil => intro st; rfl
  | cons m rest ih =>
    intro st
    calc ((m :: rest).foldl onMessage st).emotionIndex
        = (rest.foldl onMessage (onMessage st m)).emotionIndex := rfl
      _ = (onMessage st m).emotionIndex := ih _
      _ = st.emotionIndex := onMessage_emotionIndex st m

lemma foldl_onMessage_latest :
    ∀ (ms : List ProjMsg) (acc : Option RefVal) (st : SocketState),
      st.latestEmotion = acc →
      (ms.foldl onMessage st).latestEmotion
        = ms.foldl (fun a m => match msgEmotion m with | some v => some v | none => a) acc := by
  intro ms
  induction ms with
  | nil => intro acc st h; simpa using h
  | cons m rest ih =>
    intro acc st h
    have hstep : (onMessage st m).latestEmotion
        = match msgEmotion m with | some v => some v | none => acc := by
      rw [onMessage_latest, h]
    exact ih _ (onMessage st m) hstep

/-- Message whose emotion names an `Object.prototype` member. -/
def msgProto : ProjMsg := ⟨"SET_EMOTION", some "constructor", none⟩

/-- Counterexample to claim C10 as stated: `"constructor"` is not one of
the ten mapped labels (its own-key lookup fails), yet after the handler
receives it the next tick changes the exposed `emotionIndex`, and the
published value is not the numeric index of any valid emotion — it is the
`constructor` member `emotionMap` inherits from `Object.prototype`. -/
theorem projector_emotion_index_counterexample :
    emotionMapOwn (lowerAscii "constructor") = none ∧
    (tick (onMessage initSocket msgProto)).emotionIndex ≠ initSocket.emotionIndex ∧
    (tick (onMessage initSocket msgProto)).emotionIndex
      = some (RefVal.inherited "constructor") ∧
    ∀ i : Nat, (tick (onMessage initSocket msgProto)).emotionIndex ≠ some (RefVal.idx i) := by
  have h3 : (tick (onMessage initSocket msgProto)).emotionIndex
      = some (RefVal.inherited "constructor") := by decide
  refine ⟨by decide, by decide, h3, ?_⟩
  intro i
  rw [h3]
  simp

/-- Claim C10 (amended): messages by themselves never change the exposed
`emotionIndex`; a `SET_EMOTION` message whose lower-cased emotion passes
neither the own-key lookup nor the prototype-chain `in` test changes
nothing at all; an own key stores its numeric index in `latestEmotionRef`
and an `Object.prototype` name stores the inherited member; the exposed
`emotionIndex` is updated only by the interval timer tick, and then to the
value most recently stored since the previous tick (unchanged when nothing
was stored). -/
theorem projector_emotion_index_semantics :
    (∀ (st : SocketState) (m : ProjMsg),
        (onMessage st m).emotionIndex = st.emotionIndex) ∧
    (∀ (st : SocketState) (m : ProjMsg) (e : String), m.ty = "SET_EMOTION" →
        m.emotion = some e → emotionMapGet (lowerAscii e) = none → onMessage st m = st) ∧
    (∀ (st : SocketState) (m : ProjMsg) (e : String) (i : Nat), m.ty = "SET_EMOTION" →
        m.emotion = some e → e ≠ "" → emotionMapOwn (lowerAscii e) = some i →
        (onMessage st m).latestEmotion = some (RefVal.idx i)) ∧
    (∀ (st : SocketState) (m : ProjMsg) (e : String), m.ty = "SET_EMOTION" →
        m.emotion = some e → e ≠ "" → emotionMapOwn (lowerAscii e) = none →
        protoKeys.contains (lowerAscii e) = true →
        (onMessage st m).latestEmotion = some (RefVal.inherited (lowerAscii e))) ∧
    (∀ st : SocketState, (tick st).latestEmotion = none) ∧
    (∀ (st : SocketState) (ms : List ProjMsg), st.latestEmotion = none →
        (tick (ms.foldl onMessage st)).emotionIndex
          = match lastValid ms with
            | some v => some v
            | none => st.emotionIndex) := by
  refine ⟨onMessage_emotionIndex, ?_, ?_, ?_, ?_, ?_⟩
  · intro st m e hty he hmap
    unfold onMessage
    rw [he] at *
    split
    · simp [hmap]
    · split
      · rename_i hmode
        rw [hty] at hmode
        simp at hmode
      · rfl
  · intro st m e i hty he hne hmap
    have hg : emotionMapGet (lowerAscii e) = some (RefVal.idx i) := by
      simp [emotionMapGet, hmap]
    simp only [onMessage, he]
    rw [if_pos ⟨hty, by simp [truthy, hne]⟩]
    simp [hg]
  · intro st m e hty he hne hmap hproto
    have hmem : lowerAscii e ∈ protoKeys := by simpa using hproto
    have hg : emotionMapGet (lowerAscii e) = some (RefVal.inherited (lowerAscii e)) := by
      simp [emotionMapGet, hmap, hmem]
    simp only [onMessage, he]
    rw [if_pos ⟨hty, by simp [truthy, hne]⟩]
    simp [hg]
  · intro st
    unfold tick
    split <;> simp_all
  · intro st ms h
    have hl := foldl_onMessage_latest ms none st h
    unfold tick
    rw [hl]
    have hfold : lastValid ms
        = ms.foldl (fun a m => match msgEmotion m with | some v => some v | none => a)
            none := rfl
    rw [← hfold]
    cases hv : lastValid ms with
    | some v => simp
    | none => simp [foldl_onMessage_emotionIndex ms st]

/-- Message carrying a valid upper-cased emotion label. -/
def msgHappy : ProjMsg := ⟨"SET_EMOTION", some "HAPPY", none⟩

/-- Message carrying a label that is neither mapped nor inherited. -/
def msgBogus : ProjMsg := ⟨"SET_EMOTION", some "excited", none⟩

/-- Witness for the amended claim C10 at concrete messages: a label that is
neither mapped nor inherited changes nothing; a valid label is published as
its index at the next tick; an `Object.prototype` name is stored as the
inherited member. -/
theorem projector_emotion_index_semantics_witness :
    onMessage initSocket msgBogus = initSocket ∧
    (tick ([msgHappy, msgBogus].foldl onMessage initSocket)).emotionIndex
      = some (RefVal.idx 1) ∧
    (onMessage initSocket msgProto).latestEmotion
      = some (RefVal.inherited "constructor") := by
  refine ⟨?_, ?_, ?_⟩
  · exact projector_emotion_index_semantics.2.1 initSocket msgBogus "excited" rfl rfl
      (by decide)
  · have h := projector_emotion_index_semantics.2.2.2.2.2 initSocket [msgHappy, msgBogus] rfl
    exact h.trans (by decide)
  · have h := projector_emotion_index_semantics.2.2.2.1 initSocket msgProto "constructor"
      rfl rfl (by decide) (by decide) (by decide)
    exact h.trans (by decide)

/-! ## Arduino wave detection
(`hardware/arduino/sketch_jul18a/sketch_jul18a.ino` and the earlier sketch
variant without the cooldown) -/

/-- `DISTANCE_THRESHOLD` of `sketch_jul18a/sketch_jul18a.ino` (30 cm). -/
def DISTANCE_THRESHOLD : ℚ := 30

/-- `DISTANCE_THRESHOLD` of the earlier sketch variant (40 cm). -/
def DISTANCE_THRESHOLD_V0 : ℚ := 40

/-- `MAX_INTERVAL` (1000 ms): bound between the phases of one wave. -/
def MAX_INTERVAL : Nat := 1000

/-- `WAVE_COOLDOWN` (3000 ms): minimal spacing of two wave triggers. -/
def WAVE_COOLDOWN : Nat := 3000

/-- Firmware state of the wave detector in `sketch_jul18a/sketch_jul18a.ino`:
`waveState` (0 = wait-for-far, 1 = wait-for-near, 2 = wait-for-far-again),
`stateTime` (entry time of the current phase) and `lastWaveMillis` (time of
the last emitted trigger). -/
structure WaveSt where
  waveState : Nat
  stateTime : Nat
  lastWaveMillis : Nat
deriving Repr, DecidableEq

/-- Power-on firmware state. -/
def initWave : WaveSt := ⟨0, 0, 0⟩

/-- `detectWave(d, t)` of `sketch_jul18a/sketch_jul18a.ino`: the returned
boolean is true exactly when `FORGET_SIGNAL` is printed in this call.
Times are `millis()` values; `t - x` mirrors the sketch's unsigned
subtraction on a monotone clock. -/
def detectWave (s : WaveSt) (d : ℚ) (t : Nat) : WaveSt × Bool :=
  match s.waveState with
  | 0 =>
    if d > DISTANCE_THRESHOLD then ({ s with waveState := 1, stateTime := t }, false)
    else (s, false)
  | 1 =>
    if t - s.stateTime > MAX_INTERVAL then ({ s with waveState := 0, stateTime := 0 }, false)
    else if d < DISTANCE_THRESHOLD then ({ s with waveState := 2, stateTime := t }, false)
    else (s, false)
  | 2 =>
    if t - s.stateTime > MAX_INTERVAL then ({ s with waveState := 0, stateTime := 0 }, false)
    else if d > DISTANCE_THRESHOLD then
      if WAVE_COOLDOWN ≤ t - s.lastWaveMillis then
        (⟨0, 0, t⟩, true)
      else ({ s with waveState := 0, stateTime := 0 }, false)
    else (s, false)
  | _ => (s, false)

/-- Firmware state of the earlier sketch variant (no cooldown field). -/
structure WaveSt0 where
  waveState : Nat
  stateTime : Nat
deriving Repr, DecidableEq

/-- Power-on state of the earlier variant. -/
def initWave0 : WaveSt0 := ⟨0, 0⟩

/-- `detectWave(d, t)` of the earlier sketch variant: identical three-phase
machine with threshold 40 and no cooldown on the emission. -/
def detectWaveV0 (s : WaveSt0) (d : ℚ) (t : Nat) : WaveSt0 × Bool :=
  match s.waveState with
  | 0 =>
    if d > DISTANCE_THRESHOLD_V0 then ({ s with waveState := 1, stateTime := t }, false)
    else (s, false)
  | 1 =>
    if t - s.stateTime > MAX_INTERVAL then (⟨0, 0⟩, false)
    else if d < DISTANCE_THRESHOLD_V0 then ({ s with waveState := 2, stateTime := t }, false)
    else (s, false)
  | 2 =>
    if t - s.stateTime > MAX_INTERVAL then (⟨0, 0⟩, false)
    else if d > DISTANCE_THRESHOLD_V0 then ((⟨0, 0⟩ : WaveSt0), true)
    else (s, false)
  | _ => (s, false)

/-- Run of the cooldown-variant detector over a distance/time sample trace;
collects the times at which `FORGET_SIGNAL` is printed. -/
def runWave : WaveSt → List (ℚ × Nat) → WaveSt × List Nat
  | s, [] => (s, [])
  | s, (d, t) :: rest =>
    let step := detectWave s d t
    let r := runWave step.1 rest
    (r.1, (if step.2 then [t] else []) ++ r.2)

/-- Run of the earlier-variant detector over a sample trace. -/
def runWaveV0 : WaveSt0 → List (ℚ × Nat) → WaveSt0 × List Nat
  | s, [] => (s, [])
  | s, (d, t) :: rest =>
    let step := detectWaveV0 s d t
    let r := runWaveV0 step.1 rest
    (r.1, (if step.2 then [t] else []) ++ r.2)

/-- Provenance invariant of the wave state machine: phase 1 was entered on
a far reading, phase 2 on a near reading within `MAX_INTERVAL` of a far
reading; witnesses are drawn from the sample pool `all`. -/
def waveInv (all : List (ℚ × Nat)) (TH : ℚ) (w : Nat) (st : Nat) : Prop :=
  (w = 1 → ∃ d1, (d1, st) ∈ all ∧ d1 > TH) ∧
  (w = 2 → ∃ d1 t1 d2, (d1, t1) ∈ all ∧ (d2, st) ∈ all ∧
    d1 > TH ∧ d2 < TH ∧ t1 ≤ st ∧ st - t1 ≤ MAX_INTERVAL)

lemma detectWave_step (all : List (ℚ × Nat)) (s : WaveSt) (d : ℚ) (t : Nat)
    (hmem : (d, t) ∈ all) (hst : s.stateTime ≤ t)
    (hinv : waveInv all DISTANCE_THRESHOLD s.waveState s.stateTime) :
    waveInv all DISTANCE_THRESHOLD (detectWave s d t).1.waveState
      (detectWave s d t).1.stateTime ∧
    (detectWave s d t).1.stateTime ≤ t ∧
    ((detectWave s d t).2 = true →
      ∃ d1 t1 d2 t2, (d1, t1) ∈ all ∧ (d2, t2) ∈ all ∧
        d1 > DISTANCE_THRESHOLD ∧ d2 < DISTANCE_THRESHOLD ∧ d > DISTANCE_THRESHOLD ∧
        t1 ≤ t2 ∧ t2 ≤ t ∧ t2 - t1 ≤ MAX_INTERVAL ∧ t - t2 ≤ MAX_INTERVAL) := by
  obtain ⟨h1, h2⟩ := hinv
  rcases s with ⟨w, st, lw⟩
  simp only at h1 h2 hst
  rcases w with _ | _ | _ | n
  · by_cases hfar : d > DISTANCE_THRESHOLD
    · have hred : detectWave ⟨0, st, lw⟩ d t = (⟨1, t, lw⟩, false) := by
        simp [detectWave, hfar]
      rw [hred]
      exact ⟨⟨fun _ => ⟨d, hmem, hfar⟩, fun h => by simp at h⟩, le_refl t,
        fun h => by simp at h⟩
    · have hred : detectWave ⟨0, st, lw⟩ d t = (⟨0, st, lw⟩, false) := by
        simp [detectWave, hfar]
      rw [hred]
      exact ⟨⟨fun h => by simp at h, fun h => by simp at h⟩, hst,
        fun h => by simp at h⟩
  · by_cases htime : t - st > MAX_INTERVAL
    · have hred : detectWave ⟨1, st, lw⟩ d t = (⟨0, 0, lw⟩, false) := by
        simp [detectWave, htime]
      rw [hred]
      exact ⟨⟨fun h => by simp at h, fun h => by simp at h⟩, Nat.zero_le t,
        fun h => by simp at h⟩
    · by_cases hnear : d < DISTANCE_THRESHOLD
      · have hred : detectWave ⟨1, st, lw⟩ d t = (⟨2, t, lw⟩, false) := by
          simp [detectWave, htime, hnear]
        rw [hred]
        obtain ⟨d1, hm1, hd1⟩ := h1 rfl
        refine ⟨⟨fun h => by simp at h,
          fun _ => ⟨d1, st, d, hm1, hmem, hd1, hnear, hst, show t - st ≤ MAX_INTERVAL by omega⟩⟩, le_refl t,
          fun h => by simp at h⟩
      · have hred : detectWave ⟨1, st, lw⟩ d t = (⟨1, st, lw⟩, false) := by
          simp [detectWave, htime, hnear]
        rw [hred]
        exact ⟨⟨h1, h2⟩, hst, fun h => by simp at h⟩
  · by_cases htime : t - st > MAX_INTERVAL
    · have hred : detectWave ⟨2, st, lw⟩ d t = (⟨0, 0, lw⟩, false) := by
        simp [detectWave, htime]
      rw [hred]
      exact ⟨⟨fun h => by simp at h, fun h => by simp at h⟩, Nat.zero_le t,
        fun h => by simp at h⟩
    · by_cases hfar : d > DISTANCE_THRESHOLD
      · by_cases hcool : WAVE_COOLDOWN ≤ t - lw
        · have hred : detectWave ⟨2, st, lw⟩ d t = (⟨0, 0, t⟩, true) := by
            simp [detectWave, htime, hfar, hcool]
          rw [hred]
          obtain ⟨d1, t1, d2, hm1, hm2, hgt, hlt, ht1, hdiff⟩ := h2 rfl
          exact ⟨⟨fun h => by simp at h, fun h => by simp at h⟩, Nat.zero_le t,
            fun _ => ⟨d1, t1, d2, st, hm1, hm2, hgt, hlt, hfar, ht1, hst, hdiff, by omega⟩⟩
        · have hred : detectWave ⟨2, st, lw⟩ d t = (⟨0, 0, lw⟩, false) := by
            simp [detectWave, htime, hfar, hcool]
          rw [hred]
          exact ⟨⟨fun h => by simp at h, fun h => by simp at h⟩, Nat.zero_le t,
            fun h => by simp at h⟩
      · have hred : detectWave ⟨2, st, lw⟩ d t = (⟨2, st, lw⟩, false) := by
          simp [detectWave, htime, hfar]
        rw [hred]
        exact ⟨⟨h1, h2⟩, hst, fun h => by simp at h⟩
  · have hred : detectWave ⟨n + 3, st, lw⟩ d t = (⟨n + 3, st, lw⟩, false) := by
      simp [detectWave]
    rw [hred]
    exact ⟨⟨h1, h2⟩, hst, fun h => by simp at h⟩

lemma runWave_emits_aux :
    ∀ (trace all : List (ℚ × Nat)) (s : WaveSt),
      (∀ p ∈ trace, p ∈ all) →
      (∀ p ∈ trace, s.stateTime ≤ p.2) →
      List.Pairwise (fun a b => a ≤ b) (trace.map Prod.snd) →
      waveInv all DISTANCE_THRESHOLD s.waveState s.stateTime →
      ∀ t ∈ (runWave s trace).2,
        ∃ d1 t1 d2 t2 d3, (d1, t1) ∈ all ∧ (d2, t2) ∈ all ∧ (d3, t) ∈ trace ∧
          d1 > DISTANCE_THRESHOLD ∧ d2 < DISTANCE_THRESHOLD ∧ d3 > DISTANCE_THRESHOLD ∧
          t1 ≤ t2 ∧ t2 ≤ t ∧ t2 - t1 ≤ MAX_INTERVAL ∧ t - t2 ≤ MAX_INTERVAL := by
  intro trace
  induction trace with
  | nil =>
    intro all s _ _ _ _ t ht
    simp [runWave] at ht
  | cons p rest ih =>
    intro all s hsub hlb hsort hinv t ht
    obtain ⟨d, tc⟩ := p
    have hmem : (d, tc) ∈ all := hsub (d, tc) (by simp)
    have hst : s.stateTime ≤ tc := hlb (d, tc) (by simp)
    obtain ⟨hinv', hst', hemit⟩ := detectWave_step all s d tc hmem hst hinv
    have hrun : (runWave s ((d, tc) :: rest)).2
        = (if (detectWave s d tc).2 then [tc] else [])
            ++ (runWave (detectWave s d tc).1 rest).2 := rfl
    rw [hrun] at ht
    simp only [List.map_cons, List.pairwise_cons] at hsort
    rcases List.mem_append.mp ht with hhead | htail
    · cases hb : (detectWave s d tc).2 with
      | false => rw [hb] at hhead; simp at hhead
      | true =>
        rw [hb] at hhead
        simp at hhead
        subst hhead
        obtain ⟨d1, t1, d2, t2, hm1, hm2, hgt, hlt, hdgt, h12, h2t, hd12, hdt⟩ := hemit hb
        exact ⟨d1, t1, d2, t2, d, hm1, hm2, by simp, hgt, hlt, hdgt, h12, h2t, hd12, hdt⟩
    · have hhead_le : ∀ p' ∈ rest, tc ≤ p'.2 := by
        intro p' hp'
        exact hsort.1 p'.2 (List.mem_map_of_mem Prod.snd hp')
      obtain ⟨d1, t1, d2, t2, d3, hm1, hm2, hm3, hrest⟩ :=
        ih all (detectWave s d tc).1
          (fun p' hp' => hsub p' (by simp [hp']))
          (fun p' hp' => le_trans hst' (hhead_le p' hp'))
          hsort.2 hinv' t htail
      exact ⟨d1, t1, d2, t2, d3, hm1, hm2, by simp [hm3], hrest⟩

lemma detectWave_lastWave (s : WaveSt) (d : ℚ) (t : Nat) :
    ((detectWave s d t).2 = true →
      WAVE_COOLDOWN ≤ t - s.lastWaveMillis ∧ (detectWave s d t).1.lastWaveMillis = t) ∧
    ((detectWave s d t).2 = false →
      (detectWave s d t).1.lastWaveMillis = s.lastWaveMillis) := by
  rcases s with ⟨w, st, lw⟩
  rcases w with _ | _ | _ | n
  · by_cases hfar : d > DISTANCE_THRESHOLD <;> simp [detectWave, hfar]
  · by_cases htime : t - st > MAX_INTERVAL
    · simp [detectWave, htime]
    · by_cases hnear : d < DISTANCE_THRESHOLD <;> simp [detectWave, htime, hnear]
  · by_cases htime : t - st > MAX_INTERVAL
    · simp [detectWave, htime]
    · by_cases hfar : d > DISTANCE_THRESHOLD
      · by_cases hcool : WAVE_COOLDOWN ≤ t - lw <;>
          simp [detectWave, htime, hfar, hcool]
      · simp [detectWave, htime, hfar]
  · simp [detectWave]

lemma runWave_cooldown_aux :
    ∀ (trace : List (ℚ × Nat)) (s : WaveSt),
      (∀ p ∈ trace, s.lastWaveMillis ≤ p.2) →
      List.Pairwise (fun a b => a ≤ b) (trace.map Prod.snd) →
      List.Chain' (fun a b => a + WAVE_COOLDOWN ≤ b) (runWave s trace).2 ∧
      ∀ e ∈ (runWave s trace).2, s.lastWaveMillis + WAVE_COOLDOWN ≤ e := by
  intro trace
  induction trace with
  | nil =>
    intro s _ _
    constructor
    · simp [runWave]
    · intro e he; simp [runWave] at he
  | cons p rest ih =>
    intro s hlb hsort
    obtain ⟨d, tc⟩ := p
    have hlw : s.lastWaveMillis ≤ tc := hlb (d, tc) (by simp)
    simp only [List.map_cons, List.pairwise_cons] at hsort
    have hhead_le : ∀ p' ∈ rest, tc ≤ p'.2 := by
      intro p' hp'
      exact hsort.1 p'.2 (List.mem_map_of_mem Prod.snd hp')
    have hrun : (runWave s ((d, tc) :: rest)).2
        = (if (detectWave s d tc).2 then [tc] else [])
            ++ (runWave (detectWave s d tc).1 rest).2 := rfl
    obtain ⟨hemit, hnoemit⟩ := detectWave_lastWave s d tc
    cases hb : (detectWave s d tc).2 with
    | false =>
      have hlw' : (detectWave s d tc).1.lastWaveMillis = s.lastWaveMillis := hnoemit hb
      have := ih (detectWave s d tc).1
        (fun p' hp' => by rw [hlw']; exact hlb p' (by simp [hp'])) hsort.2
      rw [hlw'] at this
      rw [hrun, hb]
      simpa using this
    | true =>
      obtain ⟨hcool, hset⟩ := hemit hb
      have hfirst : s.lastWaveMillis + WAVE_COOLDOWN ≤ tc := by omega
      have hrest := ih (detectWave s d tc).1
        (fun p' hp' => by rw [hset]; exact hhead_le p' hp') hsort.2
      rw [hset] at hrest
      rw [hrun, hb]
      simp only [if_true, List.singleton_append]
      constructor
      · rw [List.chain'_cons']
        refine ⟨?_, hrest.1⟩
        intro y hy
        have hymem : y ∈ (runWave (detectWave s d tc).1 rest).2 :=
          List.mem_of_mem_head? hy
        have := hrest.2 y hymem
        omega
      · intro e he
        rcases List.mem_cons.mp he with he | he
        · omega
        · have := hrest.2 e he
          omega

lemma detectWaveV0_step (all : List (ℚ × Nat)) (s : WaveSt0) (d : ℚ) (t : Nat)
    (hmem : (d, t) ∈ all) (hst : s.stateTime ≤ t)
    (hinv : waveInv all DISTANCE_THRESHOLD_V0 s.waveState s.stateTime) :
    waveInv all DISTANCE_THRESHOLD_V0 (detectWaveV0 s d t).1.waveState
      (detectWaveV0 s d t).1.stateTime ∧
    (detectWaveV0 s d t).1.stateTime ≤ t ∧
    ((detectWaveV0 s d t).2 = true →
      ∃ d1 t1 d2 t2, (d1, t1) ∈ all ∧ (d2, t2) ∈ all ∧
        d1 > DISTANCE_THRESHOLD_V0 ∧ d2 < DISTANCE_THRESHOLD_V0 ∧ d > DISTANCE_THRESHOLD_V0 ∧
        t1 ≤ t2 ∧ t2 ≤ t ∧ t2 - t1 ≤ MAX_INTERVAL ∧ t - t2 ≤ MAX_INTERVAL) := by
  obtain ⟨h1, h2⟩ := hinv
  rcases s with ⟨w, st⟩
  simp only at h1 h2 hst
  rcases w with _ | _ | _ | n
  · by_cases hfar : d > DISTANCE_THRESHOLD_V0
    · have hred : detectWaveV0 ⟨0, st⟩ d t = (⟨1, t⟩, false) := by
        simp [detectWaveV0, hfar]
      rw [hred]
      exact ⟨⟨fun _ => ⟨d, hmem, hfar⟩, fun h => by simp at h⟩, le_refl t,
        fun h => by simp at h⟩
    · have hred : detectWaveV0 ⟨0, st⟩ d t = (⟨0, st⟩, false) := by
        simp [detectWaveV0, hfar]
      rw [hred]
      exact ⟨⟨fun h => by simp at h, fun h => by simp at h⟩, hst,
        fun h => by simp at h⟩
  · by_cases htime : t - st > MAX_INTERVAL
    · have hred : detectWaveV0 ⟨1, st⟩ d t = (⟨0, 0⟩, false) := by
        simp [detectWaveV0, htime]
      rw [hred]
      exact ⟨⟨fun h => by simp at h, fun h => by simp at h⟩, Nat.zero_le t,
        fun h => by simp at h⟩
    · by_cases hnear : d < DISTANCE_THRESHOLD_V0
      · have hred : detectWaveV0 ⟨1, st⟩ d t = (⟨2, t⟩, false) := by
          simp [detectWaveV0, htime, hnear]
        rw [hred]
        obtain ⟨d1, hm1, hd1⟩ := h1 rfl
        refine ⟨⟨fun h => by simp at h,
          fun _ => ⟨d1, st, d, hm1, hmem, hd1, hnear, hst,
            show t - st ≤ MAX_INTERVAL by omega⟩⟩, le_refl t,
          fun h => by simp at h⟩
      · have hred : detectWaveV0 ⟨1, st⟩ d t = (⟨1, st⟩, false) := by
          simp [detectWaveV0, htime, hnear]
        rw [hred]
        exact ⟨⟨h1, h2⟩, hst, fun h => by simp at h⟩
  · by_cases htime : t - st > MAX_INTERVAL
    · have hred : detectWaveV0 ⟨2, st⟩ d t = (⟨0, 0⟩, false) := by
        simp [detectWaveV0, htime]
      rw [hred]
      exact ⟨⟨fun h => by simp at h, fun h => by simp at h⟩, Nat.zero_le t,
        fun h => by simp at h⟩
    · by_cases hfar : d > DISTANCE_THRESHOLD_V0
      · have hred : detectWaveV0 ⟨2, st⟩ d t = (⟨0, 0⟩, true) := by
          simp [detectWaveV0, htime, hfar]
        rw [hred]
        obtain ⟨d1, t1, d2, hm1, hm2, hgt, hlt, ht1, hdiff⟩ := h2 rfl
        exact ⟨⟨fun h => by simp at h, fun h => by simp at h⟩, Nat.zero_le t,
          fun _ => ⟨d1, t1, d2, st, hm1, hm2, hgt, hlt, hfar, ht1, hst, hdiff, by omega⟩⟩
      · have hred : detectWaveV0 ⟨2, st⟩ d t = (⟨2, st⟩, false) := by
          simp [detectWaveV0, htime, hfar]
        rw [hred]
        exact ⟨⟨h1, h2⟩, hst, fun h => by simp at h⟩
  · have hred : detectWaveV0 ⟨n + 3, st⟩ d t = (⟨n + 3, st⟩, false) := by
      simp [detectWaveV0]
    rw [hred]
    exact ⟨⟨h1, h2⟩, hst, fun h => by simp at h⟩

lemma runWaveV0_emits_aux :
    ∀ (trace all : List (ℚ × Nat)) (s : WaveSt0),
      (∀ p ∈ trace, p ∈ all) →
      (∀ p ∈ trace, s.stateTime ≤ p.2) →
      List.Pairwise (fun a b => a ≤ b) (trace.map Prod.snd) →
      waveInv all DISTANCE_THRESHOLD_V0 s.waveState s.stateTime →
      ∀ t ∈ (runWaveV0 s trace).2,
        ∃ d1 t1 d2 t2 d3, (d1, t1) ∈ all ∧ (d2, t2) ∈ all ∧ (d3, t) ∈ trace ∧
          d1 > DISTANCE_THRESHOLD_V0 ∧ d2 < DISTANCE_THRESHOLD_V0 ∧ d3 > DISTANCE_THRESHOLD_V0 ∧
          t1 ≤ t2 ∧ t2 ≤ t ∧ t2 - t1 ≤ MAX_INTERVAL ∧ t - t2 ≤ MAX_INTERVAL := by
  intro trace
  induction trace with
  | nil =>
    intro all s _ _ _ _ t ht
    simp [runWaveV0] at ht
  | cons p rest ih =>
    intro all s hsub hlb hsort hinv t ht
    obtain ⟨d, tc⟩ := p
    have hmem : (d, tc) ∈ all := hsub (d, tc) (by simp)
    have hst : s.stateTime ≤ tc := hlb (d, tc) (by simp)
    obtain ⟨hinv', hst', hemit⟩ := detectWaveV0_step all s d tc hmem hst hinv
    have hrun : (runWaveV0 s ((d, tc) :: rest)).2
        = (if (detectWaveV0 s d tc).2 then [tc] else [])
            ++ (runWaveV0 (detectWaveV0 s d tc).1 rest).2 := rfl
    rw [hrun] at ht
    simp only [List.map_cons, List.pairwise_cons] at hsort
    rcases List.mem_append.mp ht with hhead | htail
    · cases hb : (detectWaveV0 s d tc).2 with
      | false => rw [hb] at hhead; simp at hhead
      | true =>
        rw [hb] at hhead
        simp at hhead
        subst hhead
        obtain ⟨d1, t1, d2, t2, hm1, hm2, hgt, hlt, hdgt, h12, h2t, hd12, hdt⟩ := hemit hb
        exact ⟨d1, t1, d2, t2, d, hm1, hm2, by simp, hgt, hlt, hdgt, h12, h2t, hd12, hdt⟩
    · have hhead_le : ∀ p' ∈ rest, tc ≤ p'.2 := by
        intro p' hp'
        exact hsort.1 p'.2 (List.mem_map_of_mem Prod.snd hp')
      obtain ⟨d1, t1, d2, t2, d3, hm1, hm2, hm3, hrest⟩ :=
        ih all (detectWaveV0 s d tc).1
          (fun p' hp' => hsub p' (by simp [hp']))
          (fun p' hp' => le_trans hst' (hhead_le p' hp'))
          hsort.2 hinv' t htail
      exact ⟨d1, t1, d2, t2, d3, hm1, hm2, by simp [hm3], hrest⟩

/-- Claim C9: the firmware prints `FORGET_SIGNAL` only after a complete
far→near→far sequence in which the near reading and the second far reading
each fall within `MAX_INTERVAL` of entering the previous phase (in both
sketch variants, with their respective thresholds), and in the
`sketch_jul18a` variant two emissions are additionally separated by at
least `WAVE_COOLDOWN`. -/
theorem forget_signal_wave_conditions (trace : List (ℚ × Nat))
    (hsort : List.Pairwise (fun a b => a ≤ b) (trace.map Prod.snd)) :
    (∀ t ∈ (runWave initWave trace).2,
      ∃ d1 t1 d2 t2 d3, (d1, t1) ∈ trace ∧ (d2, t2) ∈ trace ∧ (d3, t) ∈ trace ∧
        d1 > DISTANCE_THRESHOLD ∧ d2 < DISTANCE_THRESHOLD ∧ d3 > DISTANCE_THRESHOLD ∧
        t1 ≤ t2 ∧ t2 ≤ t ∧ t2 - t1 ≤ MAX_INTERVAL ∧ t - t2 ≤ MAX_INTERVAL) ∧
    List.Chain' (fun a b => a + WAVE_COOLDOWN ≤ b) (runWave initWave trace).2 ∧
    (∀ t ∈ (runWaveV0 initWave0 trace).2,
      ∃ d1 t1 d2 t2 d3, (d1, t1) ∈ trace ∧ (d2, t2) ∈ trace ∧ (d3, t) ∈ trace ∧
        d1 > DISTANCE_THRESHOLD_V0 ∧ d2 < DISTANCE_THRESHOLD_V0 ∧ d3 > DISTANCE_THRESHOLD_V0 ∧
        t1 ≤ t2 ∧ t2 ≤ t ∧ t2 - t1 ≤ MAX_INTERVAL ∧ t - t2 ≤ MAX_INTERVAL) := by
  refine ⟨?_, ?_, ?_⟩
  · exact runWave_emits_aux trace trace initWave (fun p hp => hp)
      (fun p hp => Nat.zero_le _) hsort
      ⟨fun h => by simp [initWave] at h, fun h => by simp [initWave] at h⟩
  · exact (runWave_cooldown_aux trace initWave (fun p hp => Nat.zero_le _) hsort).1
  · exact runWaveV0_emits_aux trace trace initWave0 (fun p hp => hp)
      (fun p hp => Nat.zero_le _) hsort
      ⟨fun h => by simp [initWave0] at h, fun h => by simp [initWave0] at h⟩

/-- Sample trace: far at 3000 ms, near at 3500 ms, far again at 4000 ms. -/
def traceW : List (ℚ × Nat) := [(35, 3000), (10, 3500), (35, 4000)]

/-- Witness for claim C9 at a concrete monotone sample trace on which the
`sketch_jul18a` detector emits once, at 4000 ms. -/
theorem forget_signal_wave_conditions_witness :
    List.Pairwise (fun a b => a ≤ b) (traceW.map Prod.snd) ∧
    (runWave initWave traceW).2 = [4000] ∧
    (∃ d1 t1 d2 t2 d3, (d1, t1) ∈ traceW ∧ (d2, t2) ∈ traceW ∧ (d3, 4000) ∈ traceW ∧
      d1 > DISTANCE_THRESHOLD ∧ d2 < DISTANCE_THRESHOLD ∧ d3 > DISTANCE_THRESHOLD ∧
      t1 ≤ t2 ∧ t2 ≤ 4000 ∧ t2 - t1 ≤ MAX_INTERVAL ∧ 4000 - t2 ≤ MAX_INTERVAL) ∧
    List.Chain' (fun a b => a + WAVE_COOLDOWN ≤ b) (runWave initWave traceW).2 := by
  refine ⟨by decide, by decide, ?_, ?_⟩
  · exact (forget_signal_wave_conditions traceW (by decide)).1 4000 (by decide)
  · exact (forget_signal_wave_conditions traceW (by decide)).2.1

end Oblivilight
